import Mathlib

/-!
# emaillib: a verification development

A shallow embedding of `email.go` (package `emaillib`, a wrapper around the mail
library `github.com/jordan-wright/email` and `net/smtp`) and of the example program
`bin/main.go`, followed by theorems about it.

Conventions of the embedding.

* A Go `string` is a Lean `String`; `[]byte(s)` is `s.toUTF8`.
* A Go `int` is a Lean `Int`. The program does no arithmetic on it (it only stores
  and prints the port), so no wrap-around is involved.
* A Go `error` is an `Option String`: `none` is `nil`.
* `*Client` is passed as a value and returned changed (the client owns its message
  exclusively, so there is no aliasing to account for).
* The effects of the program are recorded in a `World`: the calls made to the mail
  library's `Send`, in order, and the lines written to standard output.
* The mail library is not part of the repository. Its message type and constructor
  are modelled below; its `Send` and `AttachFile` are parameters (`Library`).
-/

namespace Emaillib

/-! ## The formatting functions of the Go standard library used by the program -/

/-- An operand of `fmt.Sprintf`: a string (for the verb `%s`) or an integer (for `%d`). -/
inductive FmtArg where
  | str (s : String)
  | int (i : Int)

/-- Expansion of a format on characters: `%s` consumes the next operand when it is a
string, `%d` when it is an integer, and every other character is copied. The program
only uses these two verbs, each on an operand of the matching type. -/
def sprintfAux : List Char → List FmtArg → List Char
  | '%' :: 's' :: rest, FmtArg.str s :: args => s.data ++ sprintfAux rest args
  | '%' :: 'd' :: rest, FmtArg.int i :: args => (toString i).data ++ sprintfAux rest args
  | c :: rest, args => c :: sprintfAux rest args
  | [], _ => []

/-- The function `fmt.Sprintf`, for the verbs `%s` and `%d`. -/
def sprintf (format : String) (args : List FmtArg) : String :=
  ⟨sprintfAux format.data args⟩

/-- The function `strconv.Itoa`: the decimal rendering of an integer. -/
def Itoa (i : Int) : String := toString i

/-- The function `strconv.FormatBool`. -/
def FormatBool (b : Bool) : String := if b then "true" else "false"

/-! ## The mail library and `net/smtp` -/

/-- Modelled from the spec: an attachment of the mail library (the library is not
under src/); the wrapper never looks inside one. -/
structure Attachment where
  Filename : String
  Content : ByteArray

/-- Modelled from the spec: the delegate message object of the mail library, which is
not under src/: "one outgoing email (from, to-list, cc-list, subject, text/HTML body,
attachments)". -/
structure Email where
  From : String
  To : List String
  Cc : List String
  Subject : String
  Text : ByteArray
  HTML : ByteArray
  Attachments : List Attachment

/-- Modelled from the spec: the constructor `emaillib.NewEmail()` of the mail library,
which is not under src/: a message with every field empty. -/
def NewEmail : Email :=
  { From := "", To := [], Cc := [], Subject := "",
    Text := ByteArray.empty, HTML := ByteArray.empty, Attachments := [] }

/-- The credential built by `smtp.PlainAuth(identity, username, password, host)`: it
records its four arguments. -/
structure PlainAuth where
  identity : String
  username : String
  password : String
  host : String
deriving DecidableEq

/-- A Go `error`: `none` is `nil`. -/
abbrev GoError := Option String

/-- One invocation of the delegate's `Send(addr, auth)`: the message it is called on,
the endpoint and the credential (`none` is the `nil` credential). -/
structure SendCall where
  msg : Email
  addr : String
  auth : Option PlainAuth

/-- The effects of the program: the invocations of the delegate's `Send`, oldest
first, and what was written to standard output. -/
structure World where
  sent : List SendCall
  stdout : List String

/-- The operations of the mail library the wrapper delegates to, as parameters:
`send` gives the error of an invocation of `Send` (it may depend on the invocations
made before; `Send` reads the message and leaves it as it is) and `attachFile` is the
effect of `AttachFile(filename)` on a message. -/
structure Library where
  send : List SendCall → SendCall → GoError
  attachFile : String → Email → Email

/-! ## email.go -/

/-- The struct `Client`. The field `from` is spelled `from_` (a reserved word). -/
structure Client where
  host : String
  port : Int
  username : String
  password : String
  useAuth : Bool
  from_ : String
  dontSend : Bool
  emailer : Email

/-- The type `ClientConfig`, a `func(*Client)`. -/
abbrev ClientConfig := Client → Client

/-- The function `buildEmailAddress`. -/
def buildEmailAddress (name email : String) : String :=
  if name = "" then email
  else sprintf "%s <%s>" [FmtArg.str name, FmtArg.str email]

/-- The option `WithRelayhost`. -/
def WithRelayhost (host : String) (port : Int) : ClientConfig :=
  fun c => { c with host := host, port := port }

/-- The option `WithSender`. -/
def WithSender (name email : String) : ClientConfig :=
  fun c => { c with from_ := buildEmailAddress name email }

/-- The option `WithAuth`. -/
def WithAuth (username password : String) (useAuth : Bool) : ClientConfig :=
  fun c => { c with username := username, password := password, useAuth := useAuth }

/-- The option `WithDontSend`. -/
def WithDontSend : ClientConfig :=
  fun c => { c with dontSend := true }

/-- The loop `for _, opt := range opts { opt(&client) }` of `NewClient`. -/
def applyOpts : List ClientConfig → Client → Client
  | [], client => client
  | opt :: opts, client => applyOpts opts (opt client)

/-- The client literal at the head of `NewClient`: the fields it does not name have
their zero value. -/
def zeroClient : Client :=
  { host := "", port := 0, username := "", password := "", useAuth := false,
    from_ := "", dontSend := false, emailer := NewEmail }

/-- The function `NewClient`. -/
def NewClient (opts : List ClientConfig) : Client :=
  let client := applyOpts opts zeroClient
  { client with emailer := { client.emailer with From := client.from_ } }

namespace Client

/-- The method `NewMessage`. -/
def NewMessage (c : Client) : Client :=
  let c1 := { c with emailer := NewEmail }
  { c1 with emailer := { c1.emailer with From := c1.from_ } }

/-- One of the two loops of `Debug`: it appends a line per entry, numbered from `i`. -/
def debugLoop : Nat → List String → String → String
  | _, [], debug => debug
  | i, to_ :: rest, debug =>
    debugLoop (i + 1) rest (debug ++ sprintf "- (%d) %s\n" [FmtArg.int i, FmtArg.str to_])

/-- The method `Debug`. -/
def Debug (c : Client) : String :=
  let debug := "From     : " ++ c.from_ ++ "\n" ++ "Host/Port: " ++ c.host ++ ":" ++ Itoa c.port
    ++ "\n" ++ "Auth?    : " ++ FormatBool c.useAuth ++ "\n" ++ "Username : " ++ c.username
  let debug := debug ++ "\n-----------------------------------\n"
  let debug := debug ++ ("Subject  : " ++ c.emailer.Subject)
  let debug := debug ++ "\n-----------------------------------\n"
  let debug := debug ++ "TO:\n"
  let debug := debugLoop 0 c.emailer.To debug
  let debug := debug ++ "CC:\n"
  let debug := debugLoop 0 c.emailer.Cc debug
  let debug := debug ++ "==================================\n"
  debug

/-- The method `From`. -/
def From (c : Client) (fromName fromEmail : String) : Client :=
  { c with emailer := { c.emailer with From := buildEmailAddress fromName fromEmail } }

/-- The method `To`. -/
def To (c : Client) (toName toEmail : String) : Client :=
  { c with emailer := { c.emailer with To := c.emailer.To ++ [buildEmailAddress toName toEmail] } }

/-- The method `CC`. -/
def CC (c : Client) (toName toEmail : String) : Client :=
  { c with emailer := { c.emailer with Cc := c.emailer.Cc ++ [buildEmailAddress toName toEmail] } }

/-- The method `Subject`. -/
def Subject (c : Client) (subject : String) : Client :=
  { c with emailer := { c.emailer with Subject := subject } }

/-- The method `BodyText`. -/
def BodyText (c : Client) (bodyText : String) : Client :=
  { c with emailer := { c.emailer with Text := bodyText.toUTF8 } }

/-- The method `BodyHTML`. -/
def BodyHTML (c : Client) (bodyHTML : String) : Client :=
  { c with emailer := { c.emailer with HTML := bodyHTML.toUTF8 } }

/-- The method `AttachFile`: the result of the library call is dropped. -/
def AttachFile (lib : Library) (c : Client) (filename : String) : Client :=
  { c with emailer := lib.attachFile filename c.emailer }

/-- The method `sendSMTPMessage`: the error returned and the world afterwards. -/
def sendSMTPMessage (lib : Library) (c : Client) (w : World) : GoError × World :=
  if c.dontSend then
    (none, { w with stdout := w.stdout ++ ["!! DONT SEND !!\n"] })
  else
    let hostnameWithPort := sprintf "%s:%d" [FmtArg.str c.host, FmtArg.int c.port]
    if c.useAuth then
      let call : SendCall :=
        ⟨c.emailer, hostnameWithPort, some ⟨"", c.username, c.password, c.host⟩⟩
      (lib.send w.sent call, { w with sent := w.sent ++ [call] })
    else
      let call : SendCall := ⟨c.emailer, hostnameWithPort, none⟩
      (lib.send w.sent call, { w with sent := w.sent ++ [call] })

/-- The method `Send`. -/
def Send (lib : Library) (c : Client) (w : World) : GoError × World :=
  sendSMTPMessage lib c w

/-- The method `Sendmail`: the error returned, the client and the world afterwards. -/
def Sendmail (lib : Library) (c : Client) (toName toEmail subject message : String)
    (w : World) : GoError × Client × World :=
  let c := c.To toName toEmail
  let c := { c with emailer := { c.emailer with Subject := subject } }
  let c := { c with emailer := { c.emailer with Text := message.toUTF8 } }
  let r := sendSMTPMessage lib c w
  (r.1, c, r.2)

end Client

/-! ## Callers: lists of options and sequences of method calls -/

/-- The concern an option is about. -/
inductive Concern where
  | relayhost
  | sender
  | credentials
  | suppression
deriving DecidableEq

/-- An option built from one of the four constructors of the package. -/
inductive ClientOption where
  | relayhost (host : String) (port : Int)
  | sender (name email : String)
  | auth (username password : String) (useAuth : Bool)
  | dontSend
deriving DecidableEq

/-- The configuration function an option stands for. -/
def ClientOption.config : ClientOption → ClientConfig
  | .relayhost host port => WithRelayhost host port
  | .sender name email => WithSender name email
  | .auth username password useAuth => WithAuth username password useAuth
  | .dontSend => WithDontSend

/-- The concern of an option. -/
def ClientOption.concern : ClientOption → Concern
  | .relayhost _ _ => Concern.relayhost
  | .sender _ _ => Concern.sender
  | .auth _ _ _ => Concern.credentials
  | .dontSend => Concern.suppression

/-- A call of one of the state-changing methods of a client. -/
inductive MsgOp where
  | newMessage
  | setFrom (fromName fromEmail : String)
  | to (toName toEmail : String)
  | cc (toName toEmail : String)
  | subject (subject : String)
  | bodyText (bodyText : String)
  | bodyHTML (bodyHTML : String)
  | attachFile (filename : String)
  | send
  | sendmail (toName toEmail subject message : String)
deriving DecidableEq

/-- Running one call: the client and the world afterwards (the error returned by
`Send` and `Sendmail` is dropped). -/
def runOp (lib : Library) : MsgOp → Client × World → Client × World
  | .newMessage, (c, w) => (c.NewMessage, w)
  | .setFrom n e, (c, w) => (c.From n e, w)
  | .to n e, (c, w) => (c.To n e, w)
  | .cc n e, (c, w) => (c.CC n e, w)
  | .subject s, (c, w) => (c.Subject s, w)
  | .bodyText t, (c, w) => (c.BodyText t, w)
  | .bodyHTML h, (c, w) => (c.BodyHTML h, w)
  | .attachFile f, (c, w) => (c.AttachFile lib f, w)
  | .send, (c, w) => (c, (c.Send lib w).2)
  | .sendmail n e s m, (c, w) => (c.Sendmail lib n e s m w).2

/-- Running a sequence of calls, first to last. -/
def runOps (lib : Library) : List MsgOp → Client × World → Client × World
  | [], st => st
  | op :: ops, st => runOps lib ops (runOp lib op st)

/-- A call that names a recipient: `To`, `CC` or `Sendmail`. -/
inductive RcptCall where
  | to (toName toEmail : String)
  | cc (toName toEmail : String)
  | sendmail (toName toEmail subject message : String)
deriving DecidableEq

/-- The method call a recipient call is. -/
def RcptCall.op : RcptCall → MsgOp
  | .to n e => MsgOp.to n e
  | .cc n e => MsgOp.cc n e
  | .sendmail n e s m => MsgOp.sendmail n e s m

/-- The entry a call is expected to add to the TO list, if any. -/
def RcptCall.toEntry : RcptCall → Option String
  | .to n e => some (buildEmailAddress n e)
  | .cc _ _ => none
  | .sendmail n e _ _ => some (buildEmailAddress n e)

/-- The entry a call is expected to add to the CC list, if any. -/
def RcptCall.ccEntry : RcptCall → Option String
  | .to _ _ => none
  | .cc n e => some (buildEmailAddress n e)
  | .sendmail _ _ _ _ => none

/-- The invocation the dispatch contract describes for a client: the endpoint is the
host, a colon and the port in decimal; the credential is the plain credential of
username, password and host (with an empty identity) when auth is enabled, and absent
otherwise. -/
def expectedCall (c : Client) : SendCall :=
  { msg := c.emailer,
    addr := c.host ++ ":" ++ toString c.port,
    auth := if c.useAuth then some ⟨"", c.username, c.password, c.host⟩ else none }

/-- A mail library whose `Send` always fails, and whose `AttachFile` finds no file. -/
def refusingLibrary : Library :=
  { send := fun _ _ => some "dial tcp: connection refused",
    attachFile := fun _ msg => msg }

/-- The world before the program has done anything. -/
def emptyWorld : World := { sent := [], stdout := [] }

/-- The client constructed in `bin/main.go`, for a given username and password. -/
def exampleClient (u p : String) : Client :=
  NewClient [WithRelayhost "smtp.fastmail.com" 465, WithAuth u p true,
    WithSender "Example Inc. Customer Service" "info@example.com", WithDontSend]

/-! ## Formatting lemmas -/

theorem sprintf_name_email (name email : String) :
    sprintf "%s <%s>" [FmtArg.str name, FmtArg.str email] = name ++ " <" ++ email ++ ">" := by
  apply String.ext
  simp [sprintf, sprintfAux, String.data_append]

theorem sprintf_host_port (host : String) (port : Int) :
    sprintf "%s:%d" [FmtArg.str host, FmtArg.int port] = host ++ ":" ++ toString port := by
  apply String.ext
  simp [sprintf, sprintfAux, String.data_append]

theorem sprintf_entry (i : Int) (entry : String) :
    sprintf "- (%d) %s\n" [FmtArg.int i, FmtArg.str entry]
      = "- (" ++ toString i ++ ") " ++ entry ++ "\n" := by
  apply String.ext
  simp [sprintf, sprintfAux, String.data_append]

/-! ## The address formatter -/

/-- C1: `buildEmailAddress name email` is exactly `email` when `name` is empty and
exactly `name ++ " <" ++ email ++ ">"` otherwise; neither argument is trimmed, quoted
or validated. -/
theorem buildEmailAddress_spec (name email : String) :
    buildEmailAddress "" email = email ∧
    buildEmailAddress name email
      = if name = "" then email else name ++ " <" ++ email ++ ">" := by
  refine ⟨by simp [buildEmailAddress], ?_⟩
  unfold buildEmailAddress
  split
  · rfl
  · exact sprintf_name_email name email

/-! ## The configuration options -/

/-- C7: each option changes only its own concern (host and port; the sender string;
username, password and the auth flag; the suppression flag) and leaves every other
field of the client as it was; hence two options of different concerns commute. -/
theorem options_frame (c : Client) :
    (∀ (h : String) (p : Int), WithRelayhost h p c
      = ⟨h, p, c.username, c.password, c.useAuth, c.from_, c.dontSend, c.emailer⟩) ∧
    (∀ n e : String, WithSender n e c
      = ⟨c.host, c.port, c.username, c.password, c.useAuth, buildEmailAddress n e,
          c.dontSend, c.emailer⟩) ∧
    (∀ (u p : String) (a : Bool), WithAuth u p a c
      = ⟨c.host, c.port, u, p, a, c.from_, c.dontSend, c.emailer⟩) ∧
    WithDontSend c
      = ⟨c.host, c.port, c.username, c.password, c.useAuth, c.from_, true, c.emailer⟩ ∧
    (∀ o₁ o₂ : ClientOption, o₁.concern ≠ o₂.concern →
      o₁.config (o₂.config c) = o₂.config (o₁.config c)) := by
  refine ⟨fun _ _ => rfl, fun _ _ => rfl, fun _ _ _ => rfl, rfl, ?_⟩
  intro o₁ o₂ h
  cases o₁ <;> cases o₂ <;> first
    | exact absurd rfl h
    | rfl

/-- C7, at an instance: a relay host option and a sender option commute. -/
theorem options_frame_witness :
    (ClientOption.relayhost "mx" 25).concern ≠ (ClientOption.sender "A" "a@b").concern ∧
    (ClientOption.relayhost "mx" 25).config ((ClientOption.sender "A" "a@b").config zeroClient)
      = (ClientOption.sender "A" "a@b").config
          ((ClientOption.relayhost "mx" 25).config zeroClient) :=
  ⟨by decide,
   (options_frame zeroClient).2.2.2.2 (ClientOption.relayhost "mx" 25)
     (ClientOption.sender "A" "a@b") (by decide)⟩

/-! ## Message accumulation -/

/-- C10: `From`, `To`, `CC`, `Subject`, `BodyText` and `BodyHTML` change the delegate
message only, and only their own field of it: the sender, the TO list (one formatted
entry appended), the CC list (likewise), the subject, the text body and the HTML body;
the other message fields and the configuration of the client stay as they were. -/
theorem accumulation_frame (c : Client) (a b : String) :
    c.From a b = ⟨c.host, c.port, c.username, c.password, c.useAuth, c.from_, c.dontSend,
      ⟨buildEmailAddress a b, c.emailer.To, c.emailer.Cc, c.emailer.Subject, c.emailer.Text,
        c.emailer.HTML, c.emailer.Attachments⟩⟩ ∧
    c.To a b = ⟨c.host, c.port, c.username, c.password, c.useAuth, c.from_, c.dontSend,
      ⟨c.emailer.From, c.emailer.To ++ [buildEmailAddress a b], c.emailer.Cc,
        c.emailer.Subject, c.emailer.Text, c.emailer.HTML, c.emailer.Attachments⟩⟩ ∧
    c.CC a b = ⟨c.host, c.port, c.username, c.password, c.useAuth, c.from_, c.dontSend,
      ⟨c.emailer.From, c.emailer.To, c.emailer.Cc ++ [buildEmailAddress a b],
        c.emailer.Subject, c.emailer.Text, c.emailer.HTML, c.emailer.Attachments⟩⟩ ∧
    c.Subject a = ⟨c.host, c.port, c.username, c.password, c.useAuth, c.from_, c.dontSend,
      ⟨c.emailer.From, c.emailer.To, c.emailer.Cc, a, c.emailer.Text, c.emailer.HTML,
        c.emailer.Attachments⟩⟩ ∧
    c.BodyText a = ⟨c.host, c.port, c.username, c.password, c.useAuth, c.from_, c.dontSend,
      ⟨c.emailer.From, c.emailer.To, c.emailer.Cc, c.emailer.Subject, a.toUTF8,
        c.emailer.HTML, c.emailer.Attachments⟩⟩ ∧
    c.BodyHTML a = ⟨c.host, c.port, c.username, c.password, c.useAuth, c.from_, c.dontSend,
      ⟨c.emailer.From, c.emailer.To, c.emailer.Cc, c.emailer.Subject, c.emailer.Text,
        a.toUTF8, c.emailer.Attachments⟩⟩ :=
  ⟨rfl, rfl, rfl, rfl, rfl, rfl⟩

/-! ## Dispatch -/

theorem sendSMTPMessage_of_send (lib : Library) (c : Client) (w : World)
    (h : c.dontSend = false) :
    c.sendSMTPMessage lib w
      = (lib.send w.sent (expectedCall c), ⟨w.sent ++ [expectedCall c], w.stdout⟩) := by
  unfold Client.sendSMTPMessage expectedCall
  rw [sprintf_host_port]
  cases hu : c.useAuth <;> simp [h]

theorem sendSMTPMessage_of_dontSend (lib : Library) (c : Client) (w : World)
    (h : c.dontSend = true) :
    c.sendSMTPMessage lib w = (none, ⟨w.sent, w.stdout ++ ["!! DONT SEND !!\n"]⟩) := by
  simp [Client.sendSMTPMessage, h]

theorem Sendmail_aux (lib : Library) (c : Client) (n e s m : String) (w : World) :
    c.Sendmail lib n e s m w
      = ((Client.Send lib (((c.To n e).Subject s).BodyText m) w).1,
         ((c.To n e).Subject s).BodyText m,
         (Client.Send lib (((c.To n e).Subject s).BodyText m) w).2) :=
  rfl

/-- C4: on a client whose suppression flag is not set, `Send` and `Sendmail` invoke the
delegate exactly once, with the endpoint `host:port` (port in decimal) and with the
plain credential of username, password and host when `useAuth` is set and no
credential otherwise, and return the delegate's error unchanged; for the unconfigured
client the endpoint is ":0", without credential, and nothing else is reported. -/
theorem send_delegates (lib : Library) (c : Client) (w : World) (n e s m : String)
    (h : c.dontSend = false) :
    c.Send lib w
      = (lib.send w.sent ⟨c.emailer, c.host ++ ":" ++ toString c.port,
            if c.useAuth then some ⟨"", c.username, c.password, c.host⟩ else none⟩,
         ⟨w.sent ++ [⟨c.emailer, c.host ++ ":" ++ toString c.port,
            if c.useAuth then some ⟨"", c.username, c.password, c.host⟩ else none⟩],
          w.stdout⟩) ∧
    c.Sendmail lib n e s m w
      = (lib.send w.sent (expectedCall (((c.To n e).Subject s).BodyText m)),
         ((c.To n e).Subject s).BodyText m,
         ⟨w.sent ++ [expectedCall (((c.To n e).Subject s).BodyText m)], w.stdout⟩) ∧
    (NewClient []).Send lib w
      = (lib.send w.sent ⟨NewEmail, ":0", none⟩,
         ⟨w.sent ++ [⟨NewEmail, ":0", none⟩], w.stdout⟩) := by
  refine ⟨sendSMTPMessage_of_send lib c w h, ?_, ?_⟩
  · have h2 : (((c.To n e).Subject s).BodyText m).dontSend = false := h
    have := sendSMTPMessage_of_send lib _ w h2
    simp only [Client.Sendmail]
    rw [show ({ ({ (c.To n e) with emailer := { (c.To n e).emailer with Subject := s } } : Client)
          with emailer := { ({ (c.To n e) with
            emailer := { (c.To n e).emailer with Subject := s } } : Client).emailer
              with Text := m.toUTF8 } } : Client) = ((c.To n e).Subject s).BodyText m from rfl]
    rw [this]
  · have := sendSMTPMessage_of_send lib (NewClient []) w rfl
    simpa [Client.Send, expectedCall, NewClient, applyOpts, zeroClient, NewEmail] using this

/-- C4, at an instance: the unconfigured client, on a library that refuses. -/
theorem send_delegates_witness :
    zeroClient.dontSend = false ∧
    zeroClient.Send refusingLibrary emptyWorld
      = (some "dial tcp: connection refused", ⟨[⟨NewEmail, ":0", none⟩], []⟩) :=
  ⟨rfl, by
    have h := (send_delegates refusingLibrary zeroClient emptyWorld "" "" "" "" rfl).1
    rw [h]
    simp [refusingLibrary, emptyWorld, zeroClient]
    decide⟩

/-- C9: `Sendmail` returns the same error and leaves the client, its message and the
world in the same state as `To`, `Subject`, `BodyText` and `Send` called one after the
other, whether or not sending is suppressed. -/
theorem Sendmail_shortcut (lib : Library) (c : Client) (toName toEmail subject message : String)
    (w : World) :
    c.Sendmail lib toName toEmail subject message w
      = ((Client.Send lib (((c.To toName toEmail).Subject subject).BodyText message) w).1,
         ((c.To toName toEmail).Subject subject).BodyText message,
         (Client.Send lib (((c.To toName toEmail).Subject subject).BodyText message) w).2) ∧
    runOp lib (MsgOp.sendmail toName toEmail subject message) (c, w)
      = runOps lib [MsgOp.to toName toEmail, MsgOp.subject subject, MsgOp.bodyText message,
          MsgOp.send] (c, w) :=
  ⟨rfl, rfl⟩

/-! ## Sequences of calls -/

theorem runOp_config (lib : Library) (op : MsgOp) (st : Client × World) :
    (runOp lib op st).1.host = st.1.host ∧ (runOp lib op st).1.port = st.1.port ∧
    (runOp lib op st).1.username = st.1.username ∧
    (runOp lib op st).1.password = st.1.password ∧
    (runOp lib op st).1.useAuth = st.1.useAuth ∧ (runOp lib op st).1.from_ = st.1.from_ ∧
    (runOp lib op st).1.dontSend = st.1.dontSend := by
  obtain ⟨c, w⟩ := st
  cases op <;> exact ⟨rfl, rfl, rfl, rfl, rfl, rfl, rfl⟩

theorem runOps_config (lib : Library) (ops : List MsgOp) (st : Client × World) :
    (runOps lib ops st).1.host = st.1.host ∧ (runOps lib ops st).1.port = st.1.port ∧
    (runOps lib ops st).1.username = st.1.username ∧
    (runOps lib ops st).1.password = st.1.password ∧
    (runOps lib ops st).1.useAuth = st.1.useAuth ∧ (runOps lib ops st).1.from_ = st.1.from_ ∧
    (runOps lib ops st).1.dontSend = st.1.dontSend := by
  induction ops generalizing st with
  | nil => exact ⟨rfl, rfl, rfl, rfl, rfl, rfl, rfl⟩
  | cons op ops ih =>
    obtain ⟨h1, h2, h3, h4, h5, h6, h7⟩ := ih (runOp lib op st)
    obtain ⟨g1, g2, g3, g4, g5, g6, g7⟩ := runOp_config lib op st
    exact ⟨h1.trans g1, h2.trans g2, h3.trans g3, h4.trans g4, h5.trans g5, h6.trans g6,
      h7.trans g7⟩

/-- C8: `NewMessage` replaces the message by an empty one (no recipients, subject,
bodies or attachments) whose sender is the configured sender `from`, whatever the
message was before, in particular after `From` had overridden the sender; the
configuration fields stay as they were, so after any calls on a constructed client the
new message carries the sender configured at construction. -/
theorem NewMessage_spec (c : Client) (n e : String) :
    c.NewMessage = ⟨c.host, c.port, c.username, c.password, c.useAuth, c.from_, c.dontSend,
      ⟨c.from_, [], [], "", ByteArray.empty, ByteArray.empty, []⟩⟩ ∧
    (c.From n e).NewMessage = c.NewMessage ∧
    (c.From n e).NewMessage.emailer.From = c.from_ ∧
    (∀ (lib : Library) (opts : List ClientConfig) (ops : List MsgOp) (w : World),
      (runOps lib ops (NewClient opts, w)).1.NewMessage.emailer.From
        = (NewClient opts).from_) :=
  ⟨rfl, rfl, rfl, fun lib opts ops w => (runOps_config lib ops (NewClient opts, w)).2.2.2.2.2.1⟩

theorem runOp_sent_of_dontSend (lib : Library) (op : MsgOp) (st : Client × World)
    (h : st.1.dontSend = true) : (runOp lib op st).2.sent = st.2.sent := by
  obtain ⟨c, w⟩ := st
  cases op with
  | send =>
    have h1 : c.dontSend = true := h
    simp [runOp, Client.Send, sendSMTPMessage_of_dontSend lib c w h1]
  | sendmail n e s m =>
    have h2 : (((c.To n e).Subject s).BodyText m).dontSend = true := h
    have h3 := (Sendmail_aux lib c n e s m w)
    simp [runOp, h3, Client.Send, sendSMTPMessage_of_dontSend lib _ w h2]
  | _ => rfl

theorem runOps_sent_of_dontSend (lib : Library) (ops : List MsgOp) (st : Client × World)
    (h : st.1.dontSend = true) : (runOps lib ops st).2.sent = st.2.sent := by
  induction ops generalizing st with
  | nil => rfl
  | cons op ops ih =>
    have h1 : (runOp lib op st).1.dontSend = true := by
      rw [(runOp_config lib op st).2.2.2.2.2.2]; exact h
    exact (ih (runOp lib op st) h1).trans (runOp_sent_of_dontSend lib op st h)

/-! ## Lists of options -/

theorem config_dontSend_mono (o : ClientOption) (c : Client) (h : c.dontSend = true) :
    (o.config c).dontSend = true := by
  cases o <;> first
    | exact h
    | rfl

theorem applyOpts_dontSend_mono (opts : List ClientOption) (c : Client)
    (h : c.dontSend = true) :
    (applyOpts (opts.map ClientOption.config) c).dontSend = true := by
  induction opts generalizing c with
  | nil => exact h
  | cons o opts ih => exact ih (o.config c) (config_dontSend_mono o c h)

theorem applyOpts_dontSend_of_mem (opts : List ClientOption) (c : Client)
    (h : ClientOption.dontSend ∈ opts) :
    (applyOpts (opts.map ClientOption.config) c).dontSend = true := by
  induction opts generalizing c with
  | nil => cases h
  | cons o opts ih =>
    rcases List.mem_cons.mp h with h1 | h1
    · subst h1
      exact applyOpts_dontSend_mono opts _ rfl
    · exact ih (o.config c) h1

theorem NewClient_dontSend_of_mem (opts : List ClientOption)
    (h : ClientOption.dontSend ∈ opts) :
    (NewClient (opts.map ClientOption.config)).dontSend = true :=
  applyOpts_dontSend_of_mem opts zeroClient h

/-- C2: when the options given to `NewClient` (any of the four kinds, in any order)
contain `WithDontSend`, then after any sequence of method calls `Send` and `Sendmail`
return no error, and the delegate's `Send` has not been invoked at all: not by them
and not by any call of the sequence. -/
theorem dontSend_suppresses (lib : Library) (opts : List ClientOption) (ops : List MsgOp)
    (w : World) (n e s m : String) (h : ClientOption.dontSend ∈ opts) :
    (Client.Send lib (runOps lib ops (NewClient (opts.map ClientOption.config), w)).1
        (runOps lib ops (NewClient (opts.map ClientOption.config), w)).2).1 = none ∧
    (Client.Send lib (runOps lib ops (NewClient (opts.map ClientOption.config), w)).1
        (runOps lib ops (NewClient (opts.map ClientOption.config), w)).2).2.sent = w.sent ∧
    (Client.Sendmail lib (runOps lib ops (NewClient (opts.map ClientOption.config), w)).1
        n e s m (runOps lib ops (NewClient (opts.map ClientOption.config), w)).2).1 = none ∧
    (Client.Sendmail lib (runOps lib ops (NewClient (opts.map ClientOption.config), w)).1
        n e s m (runOps lib ops (NewClient (opts.map ClientOption.config), w)).2).2.2.sent
      = w.sent := by
  have h0 : (NewClient (opts.map ClientOption.config)).dontSend = true :=
    NewClient_dontSend_of_mem opts h
  have hs := runOps_sent_of_dontSend lib ops (NewClient (opts.map ClientOption.config), w) h0
  have hd : (runOps lib ops (NewClient (opts.map ClientOption.config), w)).1.dontSend = true :=
    (runOps_config lib ops _).2.2.2.2.2.2.trans h0
  generalize runOps lib ops (NewClient (opts.map ClientOption.config), w) = st at hs hd
  obtain ⟨c, w1⟩ := st
  have hd2 : (((c.To n e).Subject s).BodyText m).dontSend = true := hd
  have hs1 : w1.sent = w.sent := hs
  refine ⟨?_, ?_, ?_, ?_⟩
  · simp [Client.Send, sendSMTPMessage_of_dontSend lib c w1 hd]
  · simp [Client.Send, sendSMTPMessage_of_dontSend lib c w1 hd, hs1]
  · simp [Sendmail_aux, Client.Send, sendSMTPMessage_of_dontSend lib _ w1 hd2]
  · simp [Sendmail_aux, Client.Send, sendSMTPMessage_of_dontSend lib _ w1 hd2, hs1]

/-- C2, at an instance: the options of the example program, a few calls, and a library
that would refuse every message. -/
theorem dontSend_suppresses_witness :
    ClientOption.dontSend ∈ [ClientOption.relayhost "smtp.fastmail.com" 465,
      ClientOption.dontSend, ClientOption.auth "u" "p" true] ∧
    (Client.Send refusingLibrary
      (runOps refusingLibrary [MsgOp.to "John Doe" "jd@example.com", MsgOp.send]
        (NewClient ([ClientOption.relayhost "smtp.fastmail.com" 465,
          ClientOption.dontSend, ClientOption.auth "u" "p" true].map ClientOption.config),
         emptyWorld)).1
      (runOps refusingLibrary [MsgOp.to "John Doe" "jd@example.com", MsgOp.send]
        (NewClient ([ClientOption.relayhost "smtp.fastmail.com" 465,
          ClientOption.dontSend, ClientOption.auth "u" "p" true].map ClientOption.config),
         emptyWorld)).2).1 = none :=
  ⟨by decide,
   (dontSend_suppresses refusingLibrary [ClientOption.relayhost "smtp.fastmail.com" 465,
      ClientOption.dontSend, ClientOption.auth "u" "p" true]
      [MsgOp.to "John Doe" "jd@example.com", MsgOp.send] emptyWorld "" "" "" ""
      (by decide)).1⟩

/-! ## Recipients -/

theorem runOp_rcpt (lib : Library) (call : RcptCall) (st : Client × World) :
    (runOp lib call.op st).1.emailer.To = st.1.emailer.To ++ call.toEntry.toList ∧
    (runOp lib call.op st).1.emailer.Cc = st.1.emailer.Cc ++ call.ccEntry.toList := by
  obtain ⟨c, w⟩ := st
  cases call <;> simp [RcptCall.op, runOp, RcptCall.toEntry, RcptCall.ccEntry, Client.To,
    Client.CC, Client.Sendmail]

/-- C3: after any sequence of `To`, `CC` and `Sendmail` calls the TO list is the initial
TO list followed by the formatted address of each `To` and `Sendmail` call, in call
order, and the CC list is the initial CC list followed by the formatted address of each
`CC` call, in call order; nothing is reordered, dropped or merged, so the two lists
together grow by one entry per call. -/
theorem recipients_accumulate (lib : Library) (calls : List RcptCall) (c : Client)
    (w : World) :
    (runOps lib (calls.map RcptCall.op) (c, w)).1.emailer.To
      = c.emailer.To ++ calls.filterMap RcptCall.toEntry ∧
    (runOps lib (calls.map RcptCall.op) (c, w)).1.emailer.Cc
      = c.emailer.Cc ++ calls.filterMap RcptCall.ccEntry ∧
    (runOps lib (calls.map RcptCall.op) (c, w)).1.emailer.To.length
        + (runOps lib (calls.map RcptCall.op) (c, w)).1.emailer.Cc.length
      = c.emailer.To.length + c.emailer.Cc.length + calls.length := by
  have key : ∀ (calls : List RcptCall) (st : Client × World),
      (runOps lib (calls.map RcptCall.op) st).1.emailer.To
        = st.1.emailer.To ++ calls.filterMap RcptCall.toEntry ∧
      (runOps lib (calls.map RcptCall.op) st).1.emailer.Cc
        = st.1.emailer.Cc ++ calls.filterMap RcptCall.ccEntry ∧
      (calls.filterMap RcptCall.toEntry).length + (calls.filterMap RcptCall.ccEntry).length
        = calls.length := by
    intro calls
    induction calls with
    | nil => intro st; simp [runOps]
    | cons call calls ih =>
      intro st
      obtain ⟨h1, h2, h3⟩ := ih (runOp lib call.op st)
      obtain ⟨g1, g2⟩ := runOp_rcpt lib call st
      refine ⟨?_, ?_, ?_⟩
      · simp only [List.map_cons, runOps, h1, g1]
        cases call <;> simp [RcptCall.toEntry, List.filterMap_cons]
      · simp only [List.map_cons, runOps, h2, g2]
        cases call <;> simp [RcptCall.ccEntry, List.filterMap_cons]
      · cases call <;> simp [RcptCall.toEntry, RcptCall.ccEntry, List.filterMap_cons] <;> omega
  obtain ⟨h1, h2, h3⟩ := key calls (c, w)
  refine ⟨h1, h2, ?_⟩
  rw [h1, h2, List.length_append, List.length_append]
  show c.emailer.To.length + _ + (c.emailer.Cc.length + _) = _
  omega

/-! ## The constructor -/

theorem applyOpts_eq_foldl (opts : List ClientConfig) (c : Client) :
    applyOpts opts c = opts.foldl (fun client opt => opt client) c := by
  induction opts generalizing c with
  | nil => rfl
  | cons opt opts ih => exact ih (opt c)

theorem applyOpts_append (xs ys : List ClientConfig) (c : Client) :
    applyOpts (xs ++ ys) c = applyOpts ys (applyOpts xs c) := by
  induction xs generalizing c with
  | nil => rfl
  | cons opt xs ih => exact ih (opt c)

theorem config_other (o : ClientOption) (c : Client) :
    (o.concern ≠ Concern.relayhost →
      (o.config c).host = c.host ∧ (o.config c).port = c.port) ∧
    (o.concern ≠ Concern.sender → (o.config c).from_ = c.from_) ∧
    (o.concern ≠ Concern.credentials →
      (o.config c).username = c.username ∧ (o.config c).password = c.password ∧
      (o.config c).useAuth = c.useAuth) := by
  cases o <;> refine ⟨fun h => ?_, fun h => ?_, fun h => ?_⟩ <;> first
    | exact absurd rfl h
    | exact ⟨rfl, rfl, rfl⟩
    | exact ⟨rfl, rfl⟩
    | rfl

theorem applyOpts_other (opts : List ClientOption) (c : Client) :
    ((∀ o ∈ opts, o.concern ≠ Concern.relayhost) →
      (applyOpts (opts.map ClientOption.config) c).host = c.host ∧
      (applyOpts (opts.map ClientOption.config) c).port = c.port) ∧
    ((∀ o ∈ opts, o.concern ≠ Concern.sender) →
      (applyOpts (opts.map ClientOption.config) c).from_ = c.from_) ∧
    ((∀ o ∈ opts, o.concern ≠ Concern.credentials) →
      (applyOpts (opts.map ClientOption.config) c).username = c.username ∧
      (applyOpts (opts.map ClientOption.config) c).password = c.password ∧
      (applyOpts (opts.map ClientOption.config) c).useAuth = c.useAuth) := by
  induction opts generalizing c with
  | nil => exact ⟨fun _ => ⟨rfl, rfl⟩, fun _ => rfl, fun _ => ⟨rfl, rfl, rfl⟩⟩
  | cons o opts ih =>
    obtain ⟨i1, i2, i3⟩ := ih (o.config c)
    obtain ⟨g1, g2, g3⟩ := config_other o c
    refine ⟨fun h => ?_, fun h => ?_, fun h => ?_⟩
    · obtain ⟨a1, a2⟩ := i1 (fun x hx => h x (List.mem_cons_of_mem _ hx))
      obtain ⟨b1, b2⟩ := g1 (h o (List.mem_cons_self _ _))
      exact ⟨a1.trans b1, a2.trans b2⟩
    · exact (i2 (fun x hx => h x (List.mem_cons_of_mem _ hx))).trans
        (g2 (h o (List.mem_cons_self _ _)))
    · obtain ⟨a1, a2, a3⟩ := i3 (fun x hx => h x (List.mem_cons_of_mem _ hx))
      obtain ⟨b1, b2, b3⟩ := g3 (h o (List.mem_cons_self _ _))
      exact ⟨a1.trans b1, a2.trans b2, a3.trans b3⟩

theorem NewClient_split (pre post : List ClientOption) (o : ClientOption) :
    NewClient ((pre ++ o :: post).map ClientOption.config)
      = { applyOpts (post.map ClientOption.config)
            (o.config (applyOpts (pre.map ClientOption.config) zeroClient)) with
          emailer := { (applyOpts (post.map ClientOption.config)
              (o.config (applyOpts (pre.map ClientOption.config) zeroClient))).emailer with
            From := (applyOpts (post.map ClientOption.config)
              (o.config (applyOpts (pre.map ClientOption.config) zeroClient))).from_ } } := by
  simp only [NewClient, List.map_append, List.map_cons, applyOpts_append, applyOpts]

/-- C6: `NewClient opts` is the fresh client (every configuration field zero, an empty
message) with the options applied one after another in list order, and then the
sender of the message set to the final `from`; so of several options of one concern the
last one decides (host and port, the sender, the credentials), a `WithDontSend`
anywhere sets the flag, and `NewClient` without options is the fresh client itself. -/
theorem NewClient_spec (opts : List ClientConfig) :
    zeroClient = ⟨"", 0, "", "", false, "", false,
      ⟨"", [], [], "", ByteArray.empty, ByteArray.empty, []⟩⟩ ∧
    NewClient opts
      = { opts.foldl (fun client opt => opt client) zeroClient with
          emailer := { (opts.foldl (fun client opt => opt client) zeroClient).emailer with
            From := (opts.foldl (fun client opt => opt client) zeroClient).from_ } } ∧
    (∀ (pre post : List ClientOption) (h : String) (p : Int),
      (∀ o ∈ post, o.concern ≠ Concern.relayhost) →
      (NewClient ((pre ++ ClientOption.relayhost h p :: post).map ClientOption.config)).host = h ∧
      (NewClient ((pre ++ ClientOption.relayhost h p :: post).map ClientOption.config)).port
        = p) ∧
    (∀ (pre post : List ClientOption) (n e : String),
      (∀ o ∈ post, o.concern ≠ Concern.sender) →
      (NewClient ((pre ++ ClientOption.sender n e :: post).map ClientOption.config)).from_
        = buildEmailAddress n e ∧
      (NewClient ((pre ++ ClientOption.sender n e :: post).map
        ClientOption.config)).emailer.From = buildEmailAddress n e) ∧
    (∀ (pre post : List ClientOption) (u p : String) (a : Bool),
      (∀ o ∈ post, o.concern ≠ Concern.credentials) →
      (NewClient ((pre ++ ClientOption.auth u p a :: post).map ClientOption.config)).username
        = u ∧
      (NewClient ((pre ++ ClientOption.auth u p a :: post).map ClientOption.config)).password
        = p ∧
      (NewClient ((pre ++ ClientOption.auth u p a :: post).map ClientOption.config)).useAuth
        = a) ∧
    (∀ pre post : List ClientOption,
      (NewClient ((pre ++ ClientOption.dontSend :: post).map ClientOption.config)).dontSend
        = true) ∧
    NewClient [] = zeroClient := by
  refine ⟨rfl, ?_, ?_, ?_, ?_, ?_, rfl⟩
  · simp only [NewClient, applyOpts_eq_foldl]
  · intro pre post h p hp
    rw [NewClient_split]
    exact (applyOpts_other post _).1 hp
  · intro pre post n e hp
    rw [NewClient_split]
    have := (applyOpts_other post ((ClientOption.sender n e).config
      (applyOpts (pre.map ClientOption.config) zeroClient))).2.1 hp
    exact ⟨this, this⟩
  · intro pre post u p a hp
    rw [NewClient_split]
    exact (applyOpts_other post _).2.2 hp
  · intro pre post
    exact NewClient_dontSend_of_mem _ (by simp)

/-- C6, at an instance: of two relay host options the second decides, with a sender
option after them. -/
theorem NewClient_spec_witness :
    (∀ o ∈ [ClientOption.sender "A" "a@b"], o.concern ≠ Concern.relayhost) ∧
    (NewClient (([ClientOption.relayhost "mx1" 25] ++ ClientOption.relayhost "mx2" 587 ::
      [ClientOption.sender "A" "a@b"]).map ClientOption.config)).host = "mx2" ∧
    (NewClient (([ClientOption.relayhost "mx1" 25] ++ ClientOption.relayhost "mx2" 587 ::
      [ClientOption.sender "A" "a@b"]).map ClientOption.config)).port = 587 :=
  ⟨by decide,
   (NewClient_spec []).2.2.1 [ClientOption.relayhost "mx1" 25]
     [ClientOption.sender "A" "a@b"] "mx2" 587 (by decide)⟩

/-! ## The example program -/

set_option maxRecDepth 100000 in
/-- C5: the client of the example program has the sender string
"Example Inc. Customer Service <info@example.com>"; `Sendmail` to John Doe on it returns
no error and invokes no delegate, and `Debug` afterwards shows one TO entry,
"- (0) John Doe <jd@example.com>", and no CC entry. -/
theorem example_scenario (lib : Library) (w : World) (u p : String) :
    (exampleClient u p).from_ = "Example Inc. Customer Service <info@example.com>" ∧
    (exampleClient u p).emailer.From = "Example Inc. Customer Service <info@example.com>" ∧
    ((exampleClient u p).Sendmail lib "John Doe" "jd@example.com" "Message"
      "Body of message" w).1 = none ∧
    ((exampleClient u p).Sendmail lib "John Doe" "jd@example.com" "Message"
      "Body of message" w).2.2.sent = w.sent ∧
    ((exampleClient u p).Sendmail lib "John Doe" "jd@example.com" "Message"
      "Body of message" w).2.1.emailer.To = ["John Doe <jd@example.com>"] ∧
    ((exampleClient u p).Sendmail lib "John Doe" "jd@example.com" "Message"
      "Body of message" w).2.1.emailer.Cc = [] ∧
    ((exampleClient u p).Sendmail lib "John Doe" "jd@example.com" "Message"
      "Body of message" w).2.1.Debug
      = "From     : Example Inc. Customer Service <info@example.com>\n"
        ++ "Host/Port: smtp.fastmail.com:465\n"
        ++ "Auth?    : true\n"
        ++ "Username : " ++ u
        ++ "\n-----------------------------------\n"
        ++ "Subject  : Message"
        ++ "\n-----------------------------------\n"
        ++ "TO:\n"
        ++ "- (0) John Doe <jd@example.com>\n"
        ++ "CC:\n"
        ++ "==================================\n" := by
  have hf : buildEmailAddress "Example Inc. Customer Service" "info@example.com"
      = "Example Inc. Customer Service <info@example.com>" := by decide
  have ht : buildEmailAddress "John Doe" "jd@example.com" = "John Doe <jd@example.com>" := by
    decide
  have hd : (((exampleClient u p).To "John Doe" "jd@example.com").Subject "Message").BodyText
      "Body of message" = ⟨"smtp.fastmail.com", 465, u, p, true,
        "Example Inc. Customer Service <info@example.com>", true,
        ⟨"Example Inc. Customer Service <info@example.com>", ["John Doe <jd@example.com>"], [],
          "Message", "Body of message".toUTF8, ByteArray.empty, []⟩⟩ := by
    simp only [exampleClient, NewClient, applyOpts, WithRelayhost, WithAuth, WithSender,
      WithDontSend, zeroClient, NewEmail, Client.To, Client.Subject, Client.BodyText, hf, ht,
      List.nil_append]
  rw [Sendmail_aux, hd]
  refine ⟨hf, hf, ?_, ?_, rfl, rfl, ?_⟩
  · rw [Client.Send, sendSMTPMessage_of_dontSend lib _ w rfl]
  · rw [Client.Send, sendSMTPMessage_of_dontSend lib _ w rfl]
  · simp only [Client.Debug, Client.debugLoop, sprintf_entry, Itoa, FormatBool]
    apply String.ext
    simp only [String.data_append, List.append_assoc]
    have h1 : (toString (465 : Int)).data = "465".data := by decide
    have h2 : (toString (0 : Int)).data = "0".data := by decide
    simp [h1, h2]

end Emaillib
